import Mathlib

/-!
Shallow embedding of the temporal video-effects pipeline implemented in
`apps/web/src/components/VideoCanvas.tsx`.

Modelling conventions:
* Pixel data (`ImageData.data`, a `Uint8ClampedArray` of interleaved RGBA
  bytes) is a flat `List ℚ` of channel values.  Arithmetic is exact rational
  arithmetic; a store into the clamped byte array is modelled by `clampByte`
  (clamping into `[0, 255]`; the fractional quantisation of the byte store is
  elided, as in the specification's real-valued channel formulas).
* Browser primitives that the component invokes but does not define
  (`drawImage` resampling, CSS blur filters, gradients, canvas region copies,
  `Math.sin`) are modelled as fields of `CanvasPrims`: arbitrary but fixed
  deterministic functions.  Everything the component itself computes is
  embedded concretely.
* `Math.random()` is modelled as a stream `ℕ → ℚ` of draws, consumed in call
  order within a tick.
-/

namespace Tempo

/-- Flat RGBA channel buffer: the model of `ImageData.data`. -/
abbrev Frame := List ℚ

/-- Storing a value into a `Uint8ClampedArray` clamps it into `[0, 255]`. -/
def clampByte (x : ℚ) : ℚ := max 0 (min 255 x)

/-- CSS colour parsing clamps an out-of-range alpha component into `[0, 1]`
(this applies to the `rgba(255,255,255,a)` fill of breath-sync, where the
interpolated alpha can be negative). -/
def cssAlpha (a : ℚ) : ℚ := max 0 (min 1 a)

/-- Channel values of a frame all lie in the byte range `[0, 255]`. -/
abbrev inByteRange (f : Frame) : Prop := ∀ c ∈ f, 0 ≤ c ∧ c ≤ 255

/-- Effect selector values of the render switch (source lines 108-129):
the strings `time-smear`, `echo-cascade`, `temporal-glitch`, `breath-sync`,
`memory-fade`, `liquid-time`; `Option.none` models a null selector (which,
like any unknown string, takes the default branch). -/
inductive EffectKind where
  | timeSmear
  | echoCascade
  | temporalGlitch
  | breathSync
  | memoryFade
  | liquidTime
deriving DecidableEq

/-- Mutable per-effect state of the component: `previousFrameRef` and
`frameHistoryRef` (source lines 40-41). -/
structure TickState where
  prevFrame : Option Frame
  history : List Frame
deriving DecidableEq

/-- Browser-defined primitives used by the effects (canvas rasterisation, CSS
filters, `Math.sin`).  Each is a deterministic function of its arguments;
the docstrings record which source operation each field stands for. -/
structure CanvasPrims where
  /-- breath-sync resampling (source lines 277-285): `drawImage` of the frame
  scaled by the given factor about the canvas centre. -/
  resample : ℚ → Frame → Frame
  /-- the oscillator `u ↦ Math.sin(u * Math.PI * 2)`; breath-sync evaluates it
  at `u = elapsed * breathSpeed` (source line 274). -/
  sin2pi : ℚ → ℚ
  /-- echo-cascade layer compositing (source lines 193-222): alpha-blended,
  offset, hue-rotated history layers drawn oldest to newest; takes the raw
  `decay` and `intensity` parameters and the history. -/
  echoComposite : ℚ → ℚ → List Frame → Frame
  /-- memory-fade blur overlay and radial vignette (source lines 333-348);
  takes the blur radius, the overlay alpha and the intensity. -/
  memoryPost : ℚ → ℚ → ℚ → Frame → Frame
  /-- temporal-glitch horizontal slice displacement via
  `getImageData`/`putImageData` (source lines 252-259); takes `sliceY`,
  `sliceHeight` and `displacement`. -/
  sliceDisplace : ℤ → ℤ → ℤ → Frame → Frame
  /-- liquid-time two-pass wave warp plus rotating-hue overlay (source lines
  361-411); takes the wave amplitude, wave frequency, speed and elapsed time. -/
  liquidRender : ℚ → ℚ → ℚ → ℚ → Frame → Frame
  /-- the per-tick `drawImage(video, 0, 0, canvas.width, canvas.height)`
  (source line 104): draw the video frame scaled to the canvas dimensions. -/
  drawScaled : ℕ → ℕ → ℕ → ℕ → Frame → Frame

/-- Shape of the per-pixel loops (`for (i = 0; i < data.length; i += 4)`):
apply a channel transform to the R, G and B channels of each RGBA quadruple,
pairing each with the matching channel of the retained frame, and carry the
alpha byte through untouched. -/
def mapRGB (f : ℚ → ℚ → ℚ) : List ℚ → List ℚ → List ℚ
  | r :: g :: b :: a :: rest, pr :: pg :: pb :: _ :: prest =>
      f r pr :: f g pg :: f b pb :: a :: mapRGB f rest prest
  | cur, _ => cur

/-- Per-channel time-smear computation (source lines 148-156):
`Math.min(255, c + (Math.max(c, p * decay) - c) * intensity)`, stored through
the clamped byte array. -/
def smearChan (decay intensity c p : ℚ) : ℚ :=
  clampByte (min 255 (c + (max c (p * decay) - c) * intensity))

/-- Claimed per-channel time-smear formula, following the specification's
words: `clamp(c + (max(c, history0 * decay) - c) * intensity, 0, 255)`. -/
def smearChanSpec (decay intensity c p : ℚ) : ℚ :=
  clampByte (c + (max c (p * decay) - c) * intensity)

/-- Whole-frame reading of the claimed time-smear formula. -/
def smearFrameSpec (decay intensity : ℚ) (current p : Frame) : Frame :=
  mapRGB (smearChanSpec decay intensity) current p

/-- applyTimeSmear (source lines 139-161): with a retained previous frame,
blend every RGB channel by `smearChan` and retain the output (the feedback
loop); with no previous frame, pass the current frame through and retain it. -/
def applyTimeSmear (decay intensity : ℚ) (current : Frame) (prev : Option Frame) :
    Frame × Option Frame :=
  match prev with
  | some p =>
      let out := mapRGB (smearChan decay intensity) current p
      (out, some out)
  | none => (current, some current)

/-- Per-pixel loop of memory-fade (source lines 308-329): desaturate the
previous frame's pixel toward its gray value by `desat`, then blend the
current channel toward the faded previous channel by `blend`; stores pass
through the clamped byte array. -/
def memoryData (blend desat : ℚ) : List ℚ → List ℚ → List ℚ
  | r :: g :: b :: a :: rest, pr :: pg :: pb :: _ :: prest =>
      clampByte (r * (1 - blend) + (pr + ((pr + pg + pb) / 3 - pr) * desat) * blend) ::
      clampByte (g * (1 - blend) + (pg + ((pr + pg + pb) / 3 - pg) * desat) * blend) ::
      clampByte (b * (1 - blend) + (pb + ((pr + pg + pb) / 3 - pb) * desat) * blend) ::
      a :: memoryData blend desat rest prest
  | cur, _ => cur

/-- applyMemoryFade (source lines 294-352): blend the current frame toward the
desaturated previous frame per pixel, then apply the blur overlay and the
vignette (canvas primitives); the output is retained.  With no previous frame
the tick is a passthrough that retains the current frame. -/
def applyMemoryFade (prims : CanvasPrims) (decay intensity : ℚ) (current : Frame)
    (prev : Option Frame) : Frame × Option Frame :=
  match prev with
  | some p =>
      let blended := memoryData (3 / 10 + decay * (6 / 10)) (1 / 2 + intensity * (1 / 2)) current p
      let out := prims.memoryPost (2 + intensity * 8) (3 / 10 + decay * (4 / 10)) intensity blended
      (out, some out)
  | none => (current, some current)

/-- Reading `data[j]` at an integer index: in range yields the byte, out of
range yields JavaScript `undefined`. -/
def jsRead (d : List ℚ) (j : ℤ) : Option ℚ :=
  if 0 ≤ j ∧ j < (d.length : ℤ) then some (d.getD j.toNat 0) else none

/-- JavaScript `x || y`: `y` when `x` is falsy (`0` or `undefined`), else `x`. -/
def jsOr (x : Option ℚ) (y : ℚ) : ℚ :=
  match x with
  | some v => if v = 0 then y else v
  | none => y

/-- One iteration of the temporal-glitch channel-split loop at pixel `px`
(source lines 237-248), mutating the flat buffer in place: the red channel is
pulled from `splitAmount` pixels ahead (guarded by the array length), then the
blue channel from `splitAmount` pixels behind, reading the already mutated
buffer; `x || y` keeps the old value when the fetched one is falsy. -/
def glitchSplitStep (s : ℤ) (d : List ℚ) (px : ℕ) : List ℚ :=
  let i := 4 * px
  let d1 := if (i : ℤ) + s * 4 < (d.length : ℤ) then
      d.set i (jsOr (jsRead d ((i : ℤ) + s * 4)) (d.getD i 0))
    else d
  if 0 ≤ (i : ℤ) - s * 4 then
    d1.set (i + 2) (jsOr (jsRead d1 ((i : ℤ) - s * 4 + 2)) (d1.getD (i + 2) 0))
  else d1

/-- RGB split of the temporal-glitch branch: run `glitchSplitStep` over every
pixel index in order. -/
def glitchSplit (s : ℤ) (d : List ℚ) : List ℚ :=
  (List.range ((d.length + 3) / 4)).foldl (glitchSplitStep s) d

/-- applyTemporalGlitch (source lines 225-264): with probability
`intensity * 0.3` (first `Math.random` draw) run the RGB split with
`splitAmount = floor(intensity * 15)` and, with probability `0.5` (second
draw), displace a random horizontal slice (third to fifth draws, canvas
region primitive).  The retained frame becomes the (possibly split) image
data; when not triggered the canvas keeps the already drawn current frame. -/
def applyTemporalGlitch (prims : CanvasPrims) (rng : ℕ → ℚ) (intensity cheight : ℚ)
    (current : Frame) (st : TickState) : Frame × TickState :=
  if rng 0 < intensity * (3 / 10) then
    let split := glitchSplit ⌊intensity * 15⌋ current
    let out :=
      if rng 1 < 1 / 2 then
        prims.sliceDisplace ⌊rng 2 * cheight⌋ ⌊rng 3 * 30 + 10⌋
          ⌊(rng 4 - 1 / 2) * 40 * intensity⌋ split
      else split
    (out, { st with prevFrame := some split })
  else (current, { st with prevFrame := some current })

/-- applyBreathSync (source lines 266-292): scale about the centre by
`1 + phase * intensity * 0.1` where `phase = sin(elapsed * breathSpeed * 2π)`
and `breathSpeed = 0.5 + speed * 2`, then fill the canvas with
`rgba(255, 255, 255, phase * intensity * 0.05)`; the fill composites
source-over (a blend toward white) and CSS clamps the alpha into `[0, 1]`.
Neither retained ref is touched. -/
def applyBreathSync (prims : CanvasPrims) (intensity speed elapsed : ℚ)
    (current : Frame) : Frame :=
  let breathPhase := prims.sin2pi (elapsed * (1 / 2 + speed * 2))
  let alpha := cssAlpha (breathPhase * intensity * (1 / 20))
  (prims.resample (1 + breathPhase * intensity * (1 / 10)) current).map
    fun c => clampByte (c * (1 - alpha) + 255 * alpha)

/-- One tick of the render loop (source lines 99-136): dispatch the current
frame through the selected effect, producing the presented frame and the new
retained state.  `decay` and `intensity` are taken exactly as destructured
from `effectParams` (the loop performs no sanitisation); `elapsed` is the
clock reading taken at the start of the tick; `rng` is the tick's
`Math.random` stream; `cheight` is `canvas.height`.  Call-site argument
order is preserved: breath-sync receives `(intensity, decay)` as
`(intensity, speed)` and liquid-time receives `decay` as `speed`. -/
def renderTick (prims : CanvasPrims) (rng : ℕ → ℚ) (effect : Option EffectKind)
    (decay intensity elapsed cheight : ℚ) (current : Frame) (st : TickState) :
    Frame × TickState :=
  match effect with
  | some .timeSmear =>
      let r := applyTimeSmear decay intensity current st.prevFrame
      (r.1, { st with prevFrame := r.2 })
  | some .echoCascade =>
      let hist := (current :: st.history).take (⌊(5 : ℚ) + intensity * 10⌋).toNat
      let st' := { st with history := hist }
      if hist.length < 2 then (current, st')
      else (prims.echoComposite decay intensity hist, st')
  | some .temporalGlitch => applyTemporalGlitch prims rng intensity cheight current st
  | some .breathSync => (applyBreathSync prims intensity decay elapsed current, st)
  | some .memoryFade =>
      let r := applyMemoryFade prims decay intensity current st.prevFrame
      (r.1, { st with prevFrame := r.2 })
  | some .liquidTime =>
      let out := prims.liquidRender (20 + decay * 40) (3 / 200 + decay * (1 / 50))
        decay elapsed current
      (out, { st with prevFrame := some out })
  | none => (current, { st with prevFrame := some current })

/-- Configuration of a run of the render loop: fixed primitives, a per-tick
random stream, a fixed effect selection and parameter values, a per-tick
clock reading and the per-tick incoming frame. -/
structure RunCfg where
  prims : CanvasPrims
  rngs : ℕ → ℕ → ℚ
  effect : Option EffectKind
  decay : ℚ
  intensity : ℚ
  elapsed : ℕ → ℚ
  cheight : ℚ
  frames : ℕ → Frame

/-- Tick number `k` of a run, from state `st`. -/
def tickAt (cfg : RunCfg) (k : ℕ) (st : TickState) : Frame × TickState :=
  renderTick cfg.prims (cfg.rngs k) cfg.effect cfg.decay cfg.intensity
    (cfg.elapsed k) cfg.cheight (cfg.frames k) st

/-- Retained state after `k` ticks of a run. -/
def stateAfter (cfg : RunCfg) (st0 : TickState) : ℕ → TickState
  | 0 => st0
  | k + 1 => (tickAt cfg k (stateAfter cfg st0 k)).2

/-- Frame presented by tick `k` of a run. -/
def outputAt (cfg : RunCfg) (st0 : TickState) (k : ℕ) : Frame :=
  (tickAt cfg k (stateAfter cfg st0 k)).1

/-- Props consumed by the component that matter to the effect engine. -/
structure EffectProps where
  effect : Option EffectKind
  decay : ℚ
  intensity : ℚ
deriving DecidableEq

/-- Component state owned by the refs feeding the engine, together with the
clock origin `startTimeRef` (a timestamp in milliseconds). -/
structure CanvasState where
  prevFrame : Option Frame
  history : List Frame
  startTime : ℚ
deriving DecidableEq

/-- React effect with dependency list `[effect]` (source lines 84-89): it runs
exactly when the `effect` prop changed between renders, clearing both frame
refs and moving the clock origin to the current time; a render where only
`decay`/`intensity` changed leaves all three untouched. -/
def onPropsChange (old new : EffectProps) (now : ℚ) (s : CanvasState) : CanvasState :=
  if new.effect = old.effect then s
  else { prevFrame := none, history := [], startTime := now }

/-- Clock reading taken at a tick (source line 101):
`(Date.now() - startTimeRef.current) / 1000`. -/
def elapsedAt (s : CanvasState) (now : ℚ) : ℚ := (now - s.startTime) / 1000

/-- Outcome of acquiring and drawing a source frame inside `render`. -/
inductive RenderOutcome where
  | frameOut (f : Frame)
  | configError
deriving DecidableEq

/-- handleVideoLoaded (source lines 61-82): the canvas is configured by
adopting the video's dimensions. -/
def handleVideoLoaded (videoWidth videoHeight : ℕ) : ℕ × ℕ := (videoWidth, videoHeight)

/-- Frame acquisition inside `render` (source line 104): the video frame is
drawn scaled to the canvas dimensions unconditionally; the code contains no
dimension comparison and no error path. -/
def acquireFrame (prims : CanvasPrims) (videoW videoH canvasW canvasH : ℕ)
    (video : Frame) : RenderOutcome :=
  .frameOut (prims.drawScaled videoW videoH canvasW canvasH video)

/-- Real-number reading of the breath-sync phase (source line 274):
`Math.sin(time * breathSpeed * Math.PI * 2)` with
`breathSpeed = 0.5 + speed * 2`.  Used to show concrete phase values are
reachable by the real oscillator. -/
noncomputable def breathPhaseR (elapsed speed : ℝ) : ℝ :=
  Real.sin (elapsed * (1 / 2 + speed * 2) * (Real.pi * 2))

/-- Concrete primitive instance used to state closed witnesses and
counterexamples (any fixed instance works for those statements; the
effect branches under test never evaluate the irrelevant fields). -/
def idPrims : CanvasPrims where
  resample := fun _ f => f
  sin2pi := fun _ => 0
  echoComposite := fun _ _ h => h.headD []
  memoryPost := fun _ _ _ f => f
  sliceDisplace := fun _ _ _ f => f
  liquidRender := fun _ _ _ _ f => f
  drawScaled := fun _ _ _ _ f => f

/-- Primitive instance for the breath-sync counterexample: the oscillator
value at the probed input agrees with the real `Math.sin` there (shown by the
`breathPhaseR` conjunct of the counterexample), and resampling is probed on a
single-pixel uniform frame, where scaling about the centre reproduces the
pixel. -/
def breathCexPrims : CanvasPrims :=
  { idPrims with sin2pi := fun _ => 1, resample := fun _ f => f }

/-- Solid white RGBA pixel. -/
def whiteFrame : Frame := [255, 255, 255, 255]

/-- Solid black RGBA pixel. -/
def blackFrame : Frame := [0, 0, 0, 255]

/-- The C7 scenario: time-smear with decay `0.9` and intensity `0.5`, fed the
solid white frame for ticks 0-9 and the solid black frame afterwards. -/
def smearCfg : RunCfg where
  prims := idPrims
  rngs := fun _ _ => 0
  effect := some .timeSmear
  decay := 9 / 10
  intensity := 1 / 2
  elapsed := fun _ => 0
  cheight := 0
  frames := fun k => if k < 10 then whiteFrame else blackFrame

/-- Retained state of the C7 scenario after the 10 white ticks and `k`
further black ticks. -/
def residualState (k : ℕ) : TickState :=
  stateAfter smearCfg ⟨none, []⟩ (10 + k)

/-- Echo-cascade run used by the C4 witness. -/
def echoCfg : RunCfg where
  prims := idPrims
  rngs := fun _ _ => 0
  effect := some .echoCascade
  decay := 0
  intensity := 1 / 2
  elapsed := fun _ => 0
  cheight := 0
  frames := fun _ => whiteFrame

/-- Temporal-glitch run with intensity 0, used by the C8 witness. -/
def glitchCfg : RunCfg where
  prims := idPrims
  rngs := fun _ _ => 0
  effect := some .temporalGlitch
  decay := 0
  intensity := 0
  elapsed := fun _ => 0
  cheight := 240
  frames := fun _ => whiteFrame

/-! ### Helper lemmas -/

theorem clampByte_nonneg (x : ℚ) : 0 ≤ clampByte x := le_max_left 0 _

theorem clampByte_le (x : ℚ) : clampByte x ≤ 255 :=
  max_le (by norm_num) (min_le_left 255 x)

theorem clampByte_eq_self (x : ℚ) (h0 : 0 ≤ x) (h255 : x ≤ 255) : clampByte x = x := by
  unfold clampByte
  rw [min_eq_right h255, max_eq_right h0]

theorem cssAlpha_nonneg (a : ℚ) : 0 ≤ cssAlpha a := le_max_left 0 _

theorem cssAlpha_le_one (a : ℚ) : cssAlpha a ≤ 1 :=
  max_le (by norm_num) (min_le_left 1 a)

theorem cssAlpha_of_nonpos (a : ℚ) (h : a ≤ 0) : cssAlpha a = 0 := by
  unfold cssAlpha
  rw [min_eq_right (le_trans h (by norm_num)), max_eq_left h]

theorem smearChan_eq_spec (decay intensity c p : ℚ) :
    smearChan decay intensity c p = smearChanSpec decay intensity c p := by
  unfold smearChan smearChanSpec clampByte
  rw [← min_assoc, min_self]

theorem smearChan_ge (decay intensity c p : ℚ) (hi : 0 ≤ intensity)
    (hc0 : 0 ≤ c) (hc255 : c ≤ 255) : c ≤ smearChan decay intensity c p := by
  rw [smearChan_eq_spec]
  unfold smearChanSpec clampByte
  have h1 : 0 ≤ (max c (p * decay) - c) * intensity :=
    mul_nonneg (sub_nonneg.mpr (le_max_left c (p * decay))) hi
  exact le_trans (le_min hc255 (by linarith)) (le_max_right 0 _)

theorem smearChan_black (v : ℚ) (h0 : 0 ≤ v) (h255 : v ≤ 255) :
    smearChan (9 / 10) (1 / 2) 0 v = v * (9 / 20) := by
  unfold smearChan
  have hmax : max (0 : ℚ) (v * (9 / 10)) = v * (9 / 10) :=
    max_eq_right (mul_nonneg h0 (by norm_num))
  rw [hmax]
  have he : (0 : ℚ) + (v * (9 / 10) - 0) * (1 / 2) = v * (9 / 20) := by ring
  rw [he]
  have hle : v * (9 / 20) ≤ 255 := by linarith
  rw [min_eq_right hle]
  exact clampByte_eq_self _ (mul_nonneg h0 (by norm_num)) hle

theorem forall₂_le_refl (l : List ℚ) : List.Forall₂ (· ≤ ·) l l := by
  induction l with
  | nil => exact List.Forall₂.nil
  | cons x xs ih => exact List.Forall₂.cons le_rfl ih

theorem mapRGB_congr (f g : ℚ → ℚ → ℚ) (h : ∀ c p, f c p = g c p) :
    ∀ cur p, mapRGB f cur p = mapRGB g cur p := by
  intro cur p
  induction cur, p using mapRGB.induct f with
  | case1 r g' b a rest pr pg pb pa prest ih => simp [mapRGB, h, ih]
  | case2 cur p h' => simp [mapRGB]

theorem mapRGB_ge (f : ℚ → ℚ → ℚ) (hf : ∀ c p, 0 ≤ c → c ≤ 255 → c ≤ f c p) :
    ∀ cur p, inByteRange cur → List.Forall₂ (· ≤ ·) cur (mapRGB f cur p) := by
  intro cur p
  induction cur, p using mapRGB.induct f with
  | case1 r g b a rest pr pg pb pa prest ih =>
      intro hb
      have hr := hb r (by simp)
      have hg := hb g (by simp)
      have hbb := hb b (by simp)
      rw [mapRGB]
      exact List.Forall₂.cons (hf r pr hr.1 hr.2)
        (List.Forall₂.cons (hf g pg hg.1 hg.2)
          (List.Forall₂.cons (hf b pb hbb.1 hbb.2)
            (List.Forall₂.cons le_rfl
              (ih (fun c hc => hb c (by simp [hc]))))))
  | case2 cur p h' =>
      intro _
      simp only [mapRGB]
      exact forall₂_le_refl cur

theorem mapRGB_range (f : ℚ → ℚ → ℚ) (hf : ∀ c p, 0 ≤ f c p ∧ f c p ≤ 255) :
    ∀ cur p, inByteRange cur → inByteRange (mapRGB f cur p) := by
  intro cur p
  induction cur, p using mapRGB.induct f with
  | case1 r g b a rest pr pg pb pa prest ih =>
      intro hb c hc
      rw [mapRGB] at hc
      simp only [List.mem_cons] at hc
      rcases hc with rfl | rfl | rfl | rfl | hc
      · exact hf _ _
      · exact hf _ _
      · exact hf _ _
      · exact hb c (by simp)
      · exact ih (fun x hx => hb x (by simp [hx])) c hc
  | case2 cur p h' =>
      intro hb
      simpa only [mapRGB] using hb

/-! ### Claim theorems -/

/-- C1: the time-smear tick.  With a retained previous frame, every output
channel equals the claimed `clamp(c + (max(c, prev * decay) - c) * intensity,
0, 255)` and the retained frame becomes the output frame (the feedback loop,
not the raw current frame); with no retained frame the tick passes the
current frame through and seeds the retained frame with it. -/
theorem timeSmear_tick_spec (prims : CanvasPrims) (rng : ℕ → ℚ)
    (decay intensity elapsed cheight : ℚ) (current p : Frame) (st : TickState) :
    (st.prevFrame = some p →
      renderTick prims rng (some .timeSmear) decay intensity elapsed cheight current st =
        (smearFrameSpec decay intensity current p,
          { st with prevFrame := some (smearFrameSpec decay intensity current p) })) ∧
    (st.prevFrame = none →
      renderTick prims rng (some .timeSmear) decay intensity elapsed cheight current st =
        (current, { st with prevFrame := some current })) := by
  have hq : mapRGB (smearChan decay intensity) current p =
      smearFrameSpec decay intensity current p :=
    mapRGB_congr _ _ (smearChan_eq_spec decay intensity) current p
  constructor
  · intro h
    simp only [renderTick, applyTimeSmear, h, hq]
  · intro h
    simp only [renderTick, applyTimeSmear, h]

/-- Witness for `timeSmear_tick_spec`: a concrete retained frame and a
concrete empty-history passthrough. -/
theorem timeSmear_tick_spec_witness :
    renderTick idPrims (fun _ => 0) (some .timeSmear) (9 / 10) (1 / 2) 0 0 blackFrame
        ⟨some whiteFrame, []⟩ =
      (smearFrameSpec (9 / 10) (1 / 2) blackFrame whiteFrame,
        ⟨some (smearFrameSpec (9 / 10) (1 / 2) blackFrame whiteFrame), []⟩) ∧
    renderTick idPrims (fun _ => 0) (some .timeSmear) (9 / 10) (1 / 2) 0 0 blackFrame
        ⟨none, []⟩ = (blackFrame, ⟨some blackFrame, []⟩) :=
  ⟨(timeSmear_tick_spec idPrims (fun _ => 0) (9 / 10) (1 / 2) 0 0 blackFrame whiteFrame
      ⟨some whiteFrame, []⟩).1 rfl,
   (timeSmear_tick_spec idPrims (fun _ => 0) (9 / 10) (1 / 2) 0 0 blackFrame whiteFrame
      ⟨none, []⟩).2 rfl⟩

/-- C10: time-smear never darkens.  With a retained frame, any decay in
`[0, 1]` and any nonnegative intensity, every output channel of the tick is
at least the matching channel of the current frame: the blend term
`(max(c, prev * decay) - c) * intensity` is nonnegative and only the upper
byte clamp can act. -/
theorem timeSmear_never_darkens (decay intensity : ℚ) (current p : Frame)
    (hd0 : 0 ≤ decay) (hd1 : decay ≤ 1) (hi : 0 ≤ intensity)
    (hcur : inByteRange current) :
    List.Forall₂ (· ≤ ·) current (applyTimeSmear decay intensity current (some p)).1 :=
  mapRGB_ge (smearChan decay intensity)
    (fun c q h0 h255 => smearChan_ge decay intensity c q hi h0 h255) current p hcur

/-- Witness for `timeSmear_never_darkens`. -/
theorem timeSmear_never_darkens_witness :
    List.Forall₂ (· ≤ ·) blackFrame
      (applyTimeSmear (9 / 10) (1 / 2) blackFrame (some whiteFrame)).1 :=
  timeSmear_never_darkens (9 / 10) (1 / 2) blackFrame whiteFrame (by norm_num)
    (by norm_num) (by norm_num) (by decide)

/-- C3 counterexample: the render loop hands `effectParams` to the effect
unsanitised.  With `intensity = 2` the time-smear tick on a black frame over a
retained mid-gray frame yields channel value `200`, while an engine that first
clamped the parameter into `[0, 1]` (as the claim asserts) would yield `100`:
the out-of-range value visibly enters the per-effect computation unclamped. -/
theorem params_not_clamped_cex :
    renderTick idPrims (fun _ => 0) (some .timeSmear) 1 2 0 0 blackFrame
        ⟨some [100, 100, 100, 255], []⟩ ≠
      renderTick idPrims (fun _ => 0) (some .timeSmear) 1 (max 0 (min 1 2)) 0 0 blackFrame
        ⟨some [100, 100, 100, 255], []⟩ := by
  intro h
  have h1 := congrArg (fun r => r.1.headD 0) h
  norm_num [renderTick, applyTimeSmear, mapRGB, smearChan, clampByte,
    min_def, max_def, blackFrame] at h1

/-- C3 amended: parameters are consumed exactly as supplied, with no clamping
or finiteness check before the per-effect computation; no error is raised
either way (the tick is a total function), and whatever rational values the
parameters hold, every output channel still lies in `[0, 255]` because the
clamped byte store - not parameter sanitisation - bounds the output (shown
for the time-smear tick). -/
theorem params_unclamped_total (decay intensity : ℚ) (current p : Frame)
    (hcur : inByteRange current) :
    inByteRange (applyTimeSmear decay intensity current (some p)).1 :=
  mapRGB_range (smearChan decay intensity)
    (fun _ _ => ⟨clampByte_nonneg _, clampByte_le _⟩) current p hcur

/-- Witness for `params_unclamped_total` with out-of-range parameters. -/
theorem params_unclamped_total_witness :
    inByteRange (applyTimeSmear (-3) 7 whiteFrame (some blackFrame)).1 :=
  params_unclamped_total (-3) 7 whiteFrame blackFrame (by decide)

/-- The echo-cascade tick sets the history to the truncated push of the
current frame, whichever compositing branch runs. -/
theorem echo_tick_history (cfg : RunCfg) (heff : cfg.effect = some .echoCascade)
    (k : ℕ) (st : TickState) :
    ((tickAt cfg k st).2).history =
      (cfg.frames k :: st.history).take (⌊(5 : ℚ) + cfg.intensity * 10⌋).toNat := by
  simp only [tickAt, heff, renderTick]
  split <;> rfl

/-- C4: starting from an empty history with fixed parameters, after `K`
echo-cascade ticks the history length is `min K ⌊5 + intensity * 10⌋` (the
capacity as a function of the intensity parameter), and the entry at the
front is the frame pushed by the most recent tick: each tick pushes a clone
of the current frame at the front and truncates beyond capacity. -/
theorem echoCascade_history_length (cfg : RunCfg) (K : ℕ)
    (heff : cfg.effect = some .echoCascade) (hI : 0 ≤ cfg.intensity) :
    (stateAfter cfg ⟨none, []⟩ K).history.length =
      min K (⌊(5 : ℚ) + cfg.intensity * 10⌋).toNat ∧
    (stateAfter cfg ⟨none, []⟩ (K + 1)).history.head? = some (cfg.frames K) := by
  have hcap : 1 ≤ (⌊(5 : ℚ) + cfg.intensity * 10⌋).toNat := by
    have h5 : (5 : ℤ) ≤ ⌊(5 : ℚ) + cfg.intensity * 10⌋ := by
      apply Int.le_floor.mpr
      push_cast
      linarith
    omega
  have hlen : ∀ n, (stateAfter cfg ⟨none, []⟩ n).history.length =
      min n (⌊(5 : ℚ) + cfg.intensity * 10⌋).toNat := by
    intro n
    induction n with
    | zero => simp [stateAfter]
    | succ k ih =>
        rw [stateAfter, echo_tick_history cfg heff, List.length_take]
        simp only [List.length_cons, ih]
        omega
  refine ⟨hlen K, ?_⟩
  rw [stateAfter, echo_tick_history cfg heff]
  rcases Nat.exists_eq_add_of_le hcap with ⟨m, hm⟩
  rw [hm, Nat.add_comm 1 m, List.take_succ_cons, List.head?_cons]

/-- Witness for `echoCascade_history_length` on a concrete run. -/
theorem echoCascade_history_length_witness :
    (stateAfter echoCfg ⟨none, []⟩ 3).history.length =
      min 3 (⌊(5 : ℚ) + echoCfg.intensity * 10⌋).toNat ∧
    (stateAfter echoCfg ⟨none, []⟩ (3 + 1)).history.head? = some (echoCfg.frames 3) :=
  echoCascade_history_length echoCfg 3 rfl (by norm_num [echoCfg])

/-- C2: when the effect selector changes between renders (to any value,
including back to null) the reset hook clears the previous frame and the
history and moves the clock origin to the change time, so the elapsed
reading is 0 at that moment (the next tick measures only the time since the
change); when the selector is unchanged - in particular when only the
decay/intensity values change - nothing is cleared and the clock origin is
untouched. -/
theorem effect_change_resets (old new : EffectProps) (now : ℚ) (s : CanvasState) :
    (new.effect ≠ old.effect →
      onPropsChange old new now s = ⟨none, [], now⟩ ∧
      elapsedAt (onPropsChange old new now s) now = 0) ∧
    (new.effect = old.effect → onPropsChange old new now s = s) := by
  constructor
  · intro h
    rw [onPropsChange, if_neg h]
    exact ⟨rfl, by simp [elapsedAt]⟩
  · intro h
    rw [onPropsChange, if_pos h]

/-- Witness for `effect_change_resets`: switching time-smear off resets the
state, while changing only the parameter values leaves it untouched. -/
theorem effect_change_resets_witness :
    (onPropsChange ⟨some .timeSmear, 9 / 10, 1 / 2⟩ ⟨none, 9 / 10, 1 / 2⟩ 5
        ⟨some whiteFrame, [whiteFrame], 1⟩ = ⟨none, [], 5⟩ ∧
      elapsedAt (onPropsChange ⟨some .timeSmear, 9 / 10, 1 / 2⟩ ⟨none, 9 / 10, 1 / 2⟩ 5
        ⟨some whiteFrame, [whiteFrame], 1⟩) 5 = 0) ∧
    onPropsChange ⟨some .timeSmear, 9 / 10, 1 / 2⟩ ⟨some .timeSmear, 1 / 4, 3 / 4⟩ 5
        ⟨some whiteFrame, [whiteFrame], 1⟩ = ⟨some whiteFrame, [whiteFrame], 1⟩ :=
  ⟨(effect_change_resets ⟨some .timeSmear, 9 / 10, 1 / 2⟩ ⟨none, 9 / 10, 1 / 2⟩ 5
      ⟨some whiteFrame, [whiteFrame], 1⟩).1 (by decide),
   (effect_change_resets ⟨some .timeSmear, 9 / 10, 1 / 2⟩ ⟨some .timeSmear, 1 / 4, 3 / 4⟩ 5
      ⟨some whiteFrame, [whiteFrame], 1⟩).2 rfl⟩

/-- C5: time-smear, breath-sync, memory-fade and liquid-time consume no
randomness: with the canvas primitives fixed, the tick's output frame and
post-tick retained state agree for any two `Math.random` streams, i.e. the
tick is a deterministic function of the current frame, the retained state
snapshot, the parameters and the elapsed clock alone.  (Only the
temporal-glitch branch reads the stream.) -/
theorem tick_rng_independent (prims : CanvasPrims) (rng rng' : ℕ → ℚ)
    (decay intensity elapsed cheight : ℚ) (current : Frame) (st : TickState) :
    (renderTick prims rng (some .timeSmear) decay intensity elapsed cheight current st =
      renderTick prims rng' (some .timeSmear) decay intensity elapsed cheight current st) ∧
    (renderTick prims rng (some .breathSync) decay intensity elapsed cheight current st =
      renderTick prims rng' (some .breathSync) decay intensity elapsed cheight current st) ∧
    (renderTick prims rng (some .memoryFade) decay intensity elapsed cheight current st =
      renderTick prims rng' (some .memoryFade) decay intensity elapsed cheight current st) ∧
    (renderTick prims rng (some .liquidTime) decay intensity elapsed cheight current st =
      renderTick prims rng' (some .liquidTime) decay intensity elapsed cheight current st) :=
  ⟨rfl, rfl, rfl, rfl⟩

/-- The temporal-glitch tick at intensity 0: the trigger probability
`intensity * 0.3` is exactly 0 while `Math.random()` is nonnegative, so the
glitch branch is unreachable and the tick passes the current frame through,
retaining it unchanged. -/
theorem glitch_zero_tick (prims : CanvasPrims) (rng : ℕ → ℚ) (h : 0 ≤ rng 0)
    (decay elapsed cheight : ℚ) (current : Frame) (st : TickState) :
    renderTick prims rng (some .temporalGlitch) decay 0 elapsed cheight current st =
      (current, { st with prevFrame := some current }) := by
  simp only [renderTick, applyTemporalGlitch, zero_mul]
  rw [if_neg (not_lt.mpr h)]

/-- C8: temporal-glitch with intensity 0 is an exact passthrough at every
tick of every run (whatever the random draws, provided they are nonnegative
as `Math.random` guarantees): the output of tick `k` equals the input frame
of tick `k`, and the only state change is retaining that frame. -/
theorem temporalGlitch_zero_output (cfg : RunCfg) (st0 : TickState) (k : ℕ)
    (heff : cfg.effect = some .temporalGlitch) (hzero : cfg.intensity = 0)
    (hrng : ∀ i j, 0 ≤ cfg.rngs i j) :
    outputAt cfg st0 k = cfg.frames k ∧
    stateAfter cfg st0 (k + 1) =
      { stateAfter cfg st0 k with prevFrame := some (cfg.frames k) } := by
  have ht : tickAt cfg k (stateAfter cfg st0 k) =
      (cfg.frames k, { stateAfter cfg st0 k with prevFrame := some (cfg.frames k) }) := by
    rw [tickAt, heff, hzero]
    exact glitch_zero_tick cfg.prims (cfg.rngs k) (hrng k 0) cfg.decay (cfg.elapsed k)
      cfg.cheight (cfg.frames k) (stateAfter cfg st0 k)
  exact ⟨by rw [outputAt, ht], by rw [stateAfter, ht]⟩

/-- Witness for `temporalGlitch_zero_output` on a concrete run. -/
theorem temporalGlitch_zero_output_witness :
    outputAt glitchCfg ⟨none, []⟩ 2 = glitchCfg.frames 2 ∧
    stateAfter glitchCfg ⟨none, []⟩ (2 + 1) =
      { stateAfter glitchCfg ⟨none, []⟩ 2 with prevFrame := some (glitchCfg.frames 2) } :=
  temporalGlitch_zero_output glitchCfg ⟨none, []⟩ 2 rfl rfl (fun _ _ => le_refl 0)

/-- White channel fixed point of the scenario's time-smear blend. -/
theorem smearChan_white : smearChan (9 / 10) (1 / 2) 255 255 = 255 := by
  unfold smearChan
  rw [max_eq_left (by norm_num : (255 : ℚ) * (9 / 10) ≤ 255)]
  norm_num [clampByte, min_def, max_def]

/-- White frame fixed point of the scenario's time-smear blend. -/
theorem mapRGB_white :
    mapRGB (smearChan (9 / 10) (1 / 2)) whiteFrame whiteFrame = whiteFrame := by
  simp only [whiteFrame, mapRGB, smearChan_white]

/-- One scenario tick is the concrete time-smear tick. -/
theorem tickAt_smearCfg (k : ℕ) (st : TickState) :
    tickAt smearCfg k st = renderTick idPrims (fun _ => 0) (some .timeSmear) (9 / 10)
      (1 / 2) 0 0 (smearCfg.frames k) st := rfl

/-- A white tick over a retained white frame reproduces white. -/
theorem smear_white_tick :
    renderTick idPrims (fun _ => 0) (some .timeSmear) (9 / 10) (1 / 2) 0 0 whiteFrame
      ⟨some whiteFrame, []⟩ = (whiteFrame, ⟨some whiteFrame, []⟩) := by
  have h : applyTimeSmear (9 / 10) (1 / 2) whiteFrame (some whiteFrame) =
      (whiteFrame, some whiteFrame) := by
    simp only [applyTimeSmear]
    rw [mapRGB_white]
  simp only [renderTick, h]

/-- During the white phase of the scenario the retained frame is white (after
the seeding first tick). -/
theorem smear_white_phase : ∀ k, k ≤ 10 →
    stateAfter smearCfg ⟨none, []⟩ k =
      if k = 0 then ⟨none, []⟩ else ⟨some whiteFrame, []⟩ := by
  intro k
  induction k with
  | zero => intro _; simp [stateAfter]
  | succ n ih =>
      intro hn
      have hframe : smearCfg.frames n = whiteFrame := by
        have h10 : n < 10 := by omega
        simp [smearCfg, h10]
      rw [stateAfter, if_neg (Nat.succ_ne_zero n), ih (by omega), tickAt_smearCfg, hframe]
      rcases Nat.eq_zero_or_pos n with h0 | h0
      · subst h0
        rw [if_pos rfl]
        rfl
      · rw [if_neg (by omega : ¬ n = 0), smear_white_tick]

/-- Residual formula for the black phase of the scenario: after `k` black
ticks each retained RGB channel is `255 * 0.45 ^ k`. -/
theorem residual_formula : ∀ k, residualState k =
    ⟨some [255 * (9 / 20 : ℚ) ^ k, 255 * (9 / 20 : ℚ) ^ k, 255 * (9 / 20 : ℚ) ^ k, 255],
      []⟩ := by
  intro k
  induction k with
  | zero =>
      rw [residualState, show (10 + 0) = 10 from rfl, smear_white_phase 10 le_rfl]
      norm_num [whiteFrame]
  | succ n ih =>
      have hstep : residualState (n + 1) = (tickAt smearCfg (10 + n) (residualState n)).2 := rfl
      have hframe : smearCfg.frames (10 + n) = blackFrame := by
        simp [smearCfg]
      have hv0 : (0 : ℚ) ≤ 255 * (9 / 20) ^ n := by positivity
      have hv255 : 255 * (9 / 20 : ℚ) ^ n ≤ 255 := by
        nlinarith [pow_le_one₀ (by norm_num : (0 : ℚ) ≤ 9 / 20)
          (by norm_num : (9 / 20 : ℚ) ≤ 1) (n := n)]
      have hsc := smearChan_black (255 * (9 / 20 : ℚ) ^ n) hv0 hv255
      rw [hstep, ih, tickAt_smearCfg, hframe]
      simp only [renderTick, applyTimeSmear, blackFrame, mapRGB, hsc]
      simp only [TickState.mk.injEq, Option.some.injEq, List.cons.injEq, and_true, true_and]
      refine ⟨?_, ?_, ?_⟩ <;> (rw [pow_succ]; ring)

/-- C7 amended: in the decay scenario (decay 0.9, intensity 0.5, ten
solid-white ticks then solid-black input) the retained residual after `k`
further black ticks is exactly `255 * 0.45 ^ k` per RGB channel: the per-tick
contraction factor is `decay * intensity = 0.45`, the residual is strictly
positive at every tick (so it does not reach black in one tick, nor in any
finite number of exact-arithmetic ticks) and strictly decreases toward 0, so
the number of ticks to fall below a tolerance is governed by `log epsilon /
log 0.45`, not the claimed `log 0.9`. -/
theorem timeSmear_decay_scenario (k : ℕ) :
    residualState k =
      ⟨some [255 * (9 / 20 : ℚ) ^ k, 255 * (9 / 20 : ℚ) ^ k, 255 * (9 / 20 : ℚ) ^ k, 255],
        []⟩ ∧
    0 < 255 * ((9 : ℚ) / 20) ^ k ∧
    255 * ((9 : ℚ) / 20) ^ (k + 1) < 255 * ((9 : ℚ) / 20) ^ k := by
  refine ⟨residual_formula k, by positivity, ?_⟩
  have hp : (0 : ℚ) < (9 / 20) ^ k := pow_pos (by norm_num) k
  rw [pow_succ]
  nlinarith [hp]

/-- C7 counterexample: the claimed lower bound fails.  After one further black
tick the residual channel is already `114.75`, below the tolerance
`epsilon = 1/2` of full brightness (`127.5`), yet the claimed bound
`ceil(log epsilon / log 0.9)` demands at least 2 ticks: the code contracts
the residual by `decay * intensity = 0.45` per tick, faster than the claimed
per-tick factor `0.9`. -/
theorem timeSmear_decay_scenario_cex :
    residualState 1 = ⟨some [459 / 4, 459 / 4, 459 / 4, 255], []⟩ ∧
    (459 / 4 : ℚ) < (1 / 2) * 255 ∧
    2 ≤ ⌈Real.log (1 / 2) / Real.log (9 / 10)⌉ := by
  refine ⟨?_, by norm_num, ?_⟩
  · rw [residual_formula 1]
    norm_num
  · have h9 : Real.log (9 / 10) < 0 := Real.log_neg (by norm_num) (by norm_num)
    have hlt : Real.log (1 / 2) < Real.log (9 / 10) :=
      Real.log_lt_log (by norm_num) (by norm_num)
    have h1 : (1 : ℝ) < Real.log (1 / 2) / Real.log (9 / 10) := by
      rw [lt_div_iff_of_neg h9]
      simpa using hlt
    have h2 : (1 : ℤ) < ⌈Real.log (1 / 2) / Real.log (9 / 10)⌉ := by
      rw [Int.lt_ceil]
      exact_mod_cast h1
    omega

/-- Channel behaviour of the breath-sync white overlay at a given opacity. -/
theorem overlay_chan (alpha c : ℚ) (h0 : 0 ≤ alpha) (h1 : alpha ≤ 1)
    (hc : 0 ≤ c ∧ c ≤ 255) :
    c ≤ clampByte (c * (1 - alpha) + 255 * alpha) ∧
    0 ≤ clampByte (c * (1 - alpha) + 255 * alpha) ∧
    clampByte (c * (1 - alpha) + 255 * alpha) ≤ 255 := by
  have hin0 : 0 ≤ c * (1 - alpha) + 255 * alpha := by
    have := mul_nonneg hc.1 (sub_nonneg.mpr h1)
    nlinarith
  have hin1 : c * (1 - alpha) + 255 * alpha ≤ 255 := by
    have := mul_le_mul_of_nonneg_right hc.2 (sub_nonneg.mpr h1)
    nlinarith
  rw [clampByte_eq_self _ hin0 hin1]
  have hge : c ≤ c * (1 - alpha) + 255 * alpha := by
    have := mul_nonneg h0 (sub_nonneg.mpr hc.2)
    nlinarith
  exact ⟨hge, hin0, hin1⟩

/-- The overlay never decreases a byte-range channel list. -/
theorem map_overlay_ge (alpha : ℚ) (h0 : 0 ≤ alpha) (h1 : alpha ≤ 1) :
    ∀ l : List ℚ, inByteRange l →
      List.Forall₂ (· ≤ ·) l (l.map fun c => clampByte (c * (1 - alpha) + 255 * alpha)) := by
  intro l hl
  induction l with
  | nil => exact List.Forall₂.nil
  | cons x xs ih =>
      exact List.Forall₂.cons (overlay_chan alpha x h0 h1 (hl x (by simp))).1
        (ih fun c hc => hl c (by simp [hc]))

/-- The overlay keeps a byte-range channel list in byte range. -/
theorem map_overlay_range (alpha : ℚ) (h0 : 0 ≤ alpha) (h1 : alpha ≤ 1) :
    ∀ l : List ℚ, inByteRange l →
      inByteRange (l.map fun c => clampByte (c * (1 - alpha) + 255 * alpha)) := by
  intro l hl c hc
  rw [List.mem_map] at hc
  obtain ⟨x, hx, rfl⟩ := hc
  exact ⟨(overlay_chan alpha x h0 h1 (hl x hx)).2.1,
    (overlay_chan alpha x h0 h1 (hl x hx)).2.2⟩

/-- Clamping a byte-range channel list is the identity. -/
theorem map_clampByte_self : ∀ l : List ℚ, inByteRange l → l.map clampByte = l := by
  intro l hl
  induction l with
  | nil => rfl
  | cons x xs ih =>
      simp only [List.map_cons]
      rw [clampByte_eq_self x (hl x (by simp)).1 (hl x (by simp)).2,
        ih fun c hc => hl c (by simp [hc])]

/-- C6 amended: breath-sync leaves the retained state untouched, and its
output is the frame resampled at `scale = 1 + phase * intensity * 0.1` about
the centre composited with a white source-over overlay of opacity
`clamp(phase * intensity * 0.05, 0, 1)` - a blend toward white, not a uniform
additive brightness.  No channel ever decreases; for nonpositive
`phase * intensity` the overlay alpha is clamped to 0 by CSS parsing and the
output equals the resampled frame unchanged (negative phase does not darken);
and every output channel stays in `[0, 255]`. -/
theorem breathSync_overlay (prims : CanvasPrims) (rng : ℕ → ℚ)
    (decay intensity elapsed cheight : ℚ) (current : Frame) (st : TickState)
    (hres : inByteRange (prims.resample
      (1 + prims.sin2pi (elapsed * (1 / 2 + decay * 2)) * intensity * (1 / 10)) current)) :
    (renderTick prims rng (some .breathSync) decay intensity elapsed cheight current st).2
        = st ∧
    List.Forall₂ (· ≤ ·)
      (prims.resample (1 + prims.sin2pi (elapsed * (1 / 2 + decay * 2)) * intensity * (1 / 10))
        current)
      (renderTick prims rng (some .breathSync) decay intensity elapsed cheight current st).1 ∧
    inByteRange
      (renderTick prims rng (some .breathSync) decay intensity elapsed cheight current st).1 ∧
    (prims.sin2pi (elapsed * (1 / 2 + decay * 2)) * intensity ≤ 0 →
      (renderTick prims rng (some .breathSync) decay intensity elapsed cheight current st).1 =
        prims.resample (1 + prims.sin2pi (elapsed * (1 / 2 + decay * 2)) * intensity * (1 / 10))
          current) := by
  have hkey : (renderTick prims rng (some .breathSync) decay intensity elapsed cheight
      current st).1 =
      (prims.resample (1 + prims.sin2pi (elapsed * (1 / 2 + decay * 2)) * intensity * (1 / 10))
        current).map
        (fun c => clampByte
          (c * (1 - cssAlpha (prims.sin2pi (elapsed * (1 / 2 + decay * 2)) * intensity * (1 / 20)))
            + 255 * cssAlpha (prims.sin2pi (elapsed * (1 / 2 + decay * 2)) * intensity * (1 / 20)))) :=
    rfl
  refine ⟨rfl, ?_, ?_, ?_⟩
  · rw [hkey]
    exact map_overlay_ge _ (cssAlpha_nonneg _) (cssAlpha_le_one _) _ hres
  · rw [hkey]
    exact map_overlay_range _ (cssAlpha_nonneg _) (cssAlpha_le_one _) _ hres
  · intro hneg
    have halpha : prims.sin2pi (elapsed * (1 / 2 + decay * 2)) * intensity * (1 / 20) ≤ 0 := by
      nlinarith [hneg]
    rw [hkey, cssAlpha_of_nonpos _ halpha]
    simp only [sub_zero, mul_one, mul_zero, add_zero]
    exact map_clampByte_self _ hres

/-- Witness for `breathSync_overlay` on a concrete frame and state. -/
theorem breathSync_overlay_witness :
    (renderTick idPrims (fun _ => 0) (some .breathSync) (1 / 4) 1 0 0 whiteFrame
        ⟨some blackFrame, [blackFrame]⟩).2 = ⟨some blackFrame, [blackFrame]⟩ ∧
    List.Forall₂ (· ≤ ·)
      (idPrims.resample (1 + idPrims.sin2pi (0 * (1 / 2 + (1 / 4) * 2)) * 1 * (1 / 10))
        whiteFrame)
      (renderTick idPrims (fun _ => 0) (some .breathSync) (1 / 4) 1 0 0 whiteFrame
        ⟨some blackFrame, [blackFrame]⟩).1 ∧
    inByteRange
      (renderTick idPrims (fun _ => 0) (some .breathSync) (1 / 4) 1 0 0 whiteFrame
        ⟨some blackFrame, [blackFrame]⟩).1 ∧
    (idPrims.sin2pi (0 * (1 / 2 + (1 / 4) * 2)) * 1 ≤ 0 →
      (renderTick idPrims (fun _ => 0) (some .breathSync) (1 / 4) 1 0 0 whiteFrame
        ⟨some blackFrame, [blackFrame]⟩).1 =
        idPrims.resample (1 + idPrims.sin2pi (0 * (1 / 2 + (1 / 4) * 2)) * 1 * (1 / 10))
          whiteFrame) :=
  breathSync_overlay idPrims (fun _ => 0) (1 / 4) 1 0 0 whiteFrame
    ⟨some blackFrame, [blackFrame]⟩ (by decide)

/-- C6 counterexample: at `elapsed = 1/4`, `speed = 1/4` the phase is exactly
1 (the real oscillator value is `sin(π/2)`); with `intensity = 1` the code
composites a white overlay of opacity `0.05` over the resampled frame
(source-over), turning channel 100 into `100 * 0.95 + 255 * 0.05 = 107.75`,
whereas the claimed uniform additive brightness `phase * intensity * 0.05 *
255` would give `100 + 12.75 = 112.75`: the overlay is a blend toward white,
not an additive brightness. -/
theorem breathSync_additive_cex :
    breathPhaseR (1 / 4) (1 / 4) = 1 ∧
    applyBreathSync breathCexPrims 1 (1 / 4) (1 / 4) [100, 100, 100, 255] =
      [431 / 4, 431 / 4, 431 / 4, 255] ∧
    clampByte (100 + 1 * 1 * (1 / 20) * 255) = 451 / 4 ∧
    (431 / 4 : ℚ) ≠ 451 / 4 := by
  refine ⟨?_, ?_, ?_, by norm_num⟩
  · unfold breathPhaseR
    have h : (1 / 4 : ℝ) * (1 / 2 + 1 / 4 * 2) * (Real.pi * 2) = Real.pi / 2 := by ring
    rw [h, Real.sin_pi_div_two]
  · norm_num [applyBreathSync, breathCexPrims, idPrims, cssAlpha, clampByte, min_def, max_def]
  · norm_num [clampByte, min_def, max_def]

/-- C9 counterexample: with video dimensions 640x480 and the canvas configured
at 320x240 the render step still produces an output frame - the video is
silently drawn scaled to the canvas dimensions - and it is not a
ConfigurationError: a dimension-mismatched frame is never rejected. -/
theorem dimension_mismatch_cex :
    acquireFrame idPrims 640 480 320 240 whiteFrame = RenderOutcome.frameOut whiteFrame ∧
    acquireFrame idPrims 640 480 320 240 whiteFrame ≠ RenderOutcome.configError :=
  ⟨rfl, by simp [acquireFrame]⟩

/-- C9 amended: the render loop performs no dimension comparison at all:
every incoming frame is drawn scaled to the configured canvas dimensions and
an output frame is always produced, whatever the video dimensions; no error
outcome is ever returned, and the only dimension handling in the component is
`handleVideoLoaded` adopting the video's dimensions as the canvas
configuration when a video loads. -/
theorem dimension_no_reject (prims : CanvasPrims) (vw vh cw ch : ℕ) (video : Frame) :
    acquireFrame prims vw vh cw ch video =
      RenderOutcome.frameOut (prims.drawScaled vw vh cw ch video) ∧
    acquireFrame prims vw vh cw ch video ≠ RenderOutcome.configError ∧
    handleVideoLoaded vw vh = (vw, vh) := by
  refine ⟨rfl, ?_, rfl⟩
  simp [acquireFrame]

/-- Witness for `dimension_no_reject` at concrete dimensions. -/
theorem dimension_no_reject_witness :
    acquireFrame idPrims 320 240 320 240 blackFrame =
      RenderOutcome.frameOut (idPrims.drawScaled 320 240 320 240 blackFrame) ∧
    acquireFrame idPrims 320 240 320 240 blackFrame ≠ RenderOutcome.configError ∧
    handleVideoLoaded 320 240 = (320, 240) :=
  dimension_no_reject idPrims 320 240 320 240 blackFrame

end Tempo
